import Mathlib

/-!
Verification development for the `spart` Spartan-protocol client
(`src/lib.rs`).  The Rust code is shallowly embedded: the parsed URL
(`url::Url`) is modelled by the record of its accessor results, the
`urlencoding::decode` helper is embedded at the byte level (lenient
percent-decoding followed by strict UTF-8 validation, matching the crate
and `String::from_utf8`), and `Request::from_url` together with the
`Display` implementation are translated line by line.  A `.unwrap()` on a
failed decode panics in Rust; the embedding returns `none` for that
outcome, so `Request.from_url : Url → Option (RustResult Request String)`
distinguishes a panic (`none`) from a returned `Err` (`some (.err e)`).
-/

/-- Model of a parsed `url::Url` value: the record of the accessor results
`scheme()`, `host_str()`, `port()`, `path()`, `query()`, `fragment()`,
`username()` that the repository reads. -/
structure Url where
  scheme : String
  host : Option String
  port : Option Nat
  path : String
  query : Option String
  fragment : Option String
  username : String
deriving Repr, DecidableEq

/-- The `Request` struct of `src/lib.rs`: host, path, content length and
optional body. -/
structure Request where
  host : String
  path : String
  content_length : Nat
  data : Option String
deriving Repr, DecidableEq

/-- UTF-8 encoding of a single character (scalar value), by the standard
1-to-4 byte scheme.  Models how a Rust `&str` stores its characters. -/
def utf8EncodeChar (c : Char) : List Nat :=
  if c.toNat < 0x80 then [c.toNat]
  else if c.toNat < 0x800 then [0xC0 + c.toNat / 0x40, 0x80 + c.toNat % 0x40]
  else if c.toNat < 0x10000 then
    [0xE0 + c.toNat / 0x1000, 0x80 + (c.toNat / 0x40) % 0x40, 0x80 + c.toNat % 0x40]
  else
    [0xF0 + c.toNat / 0x40000, 0x80 + (c.toNat / 0x1000) % 0x40,
      0x80 + (c.toNat / 0x40) % 0x40, 0x80 + c.toNat % 0x40]

/-- UTF-8 encoding of a character list: the byte content of a Rust string
slice. -/
def utf8Encode : List Char → List Nat
  | [] => []
  | c :: cs => utf8EncodeChar c ++ utf8Encode cs

/-- Strict UTF-8 decoding of a byte list, mirroring Rust
`String::from_utf8`: rejects continuation-byte starts, overlong forms,
surrogates and code points above `U+10FFFF`.  The first argument is fuel
bounding the recursion depth; one unit is consumed per decoded character,
so any fuel above the list length is enough (see `utf8Decode`). -/
def utf8DecodeF : Nat → List Nat → Option (List Char)
  | 0, _ => none
  | fuel + 1, l =>
    match l with
    | [] => some []
    | b0 :: bs =>
    if b0 < 0x80 then (utf8DecodeF fuel bs).map (fun cs => Char.ofNat b0 :: cs)
    else if b0 < 0xC2 then none
    else if b0 ≤ 0xDF then
      match bs with
      | b1 :: bs2 =>
        if 0x80 ≤ b1 ∧ b1 ≤ 0xBF then
          (utf8DecodeF fuel bs2).map
            (fun cs => Char.ofNat ((b0 - 0xC0) * 0x40 + (b1 - 0x80)) :: cs)
        else none
      | _ => none
    else if b0 ≤ 0xEF then
      match bs with
      | b1 :: b2 :: bs2 =>
        if (if b0 = 0xE0 then 0xA0 else 0x80) ≤ b1 ∧
            b1 ≤ (if b0 = 0xED then 0x9F else 0xBF) ∧
            0x80 ≤ b2 ∧ b2 ≤ 0xBF then
          (utf8DecodeF fuel bs2).map
            (fun cs =>
              Char.ofNat ((b0 - 0xE0) * 0x1000 + (b1 - 0x80) * 0x40 + (b2 - 0x80)) :: cs)
        else none
      | _ => none
    else if b0 ≤ 0xF4 then
      match bs with
      | b1 :: b2 :: b3 :: bs2 =>
        if (if b0 = 0xF0 then 0x90 else 0x80) ≤ b1 ∧
            b1 ≤ (if b0 = 0xF4 then 0x8F else 0xBF) ∧
            0x80 ≤ b2 ∧ b2 ≤ 0xBF ∧ 0x80 ≤ b3 ∧ b3 ≤ 0xBF then
          (utf8DecodeF fuel bs2).map
            (fun cs =>
              Char.ofNat
                ((b0 - 0xF0) * 0x40000 + (b1 - 0x80) * 0x1000 +
                  (b2 - 0x80) * 0x40 + (b3 - 0x80)) :: cs)
        else none
      | _ => none
    else none

/-- UTF-8 decoding with the always-sufficient fuel: the model of Rust
`String::from_utf8` on a byte list. -/
def utf8Decode (l : List Nat) : Option (List Char) :=
  utf8DecodeF (l.length + 1) l

/-- Hex-digit value of a byte, as in the `urlencoding` crate
(`0-9`, `A-F`, `a-f`). -/
def fromHexDigit (b : Nat) : Option Nat :=
  if 0x30 ≤ b ∧ b ≤ 0x39 then some (b - 0x30)
  else if 0x41 ≤ b ∧ b ≤ 0x46 then some (b - 0x41 + 10)
  else if 0x61 ≤ b ∧ b ≤ 0x66 then some (b - 0x61 + 10)
  else none

/-- Byte-level percent-decoding of `urlencoding::decode_binary`: a `%`
followed by two hex digits becomes the decoded byte; a `%` not followed by
two hex digits is passed through literally (the crate is lenient); every
other byte is passed through unchanged.  `+` receives no special
treatment. -/
def decode_binary : List Nat → List Nat
  | [] => []
  | b :: h1 :: h2 :: rest2 =>
    if b = 0x25 then
      match fromHexDigit h1, fromHexDigit h2 with
      | some d1, some d2 => (d1 * 0x10 + d2) :: decode_binary rest2
      | _, _ => b :: decode_binary (h1 :: h2 :: rest2)
    else b :: decode_binary (h1 :: h2 :: rest2)
  | b :: rest => b :: decode_binary rest

/-- Embedding of `urlencoding::decode`: percent-decode the UTF-8 bytes of
the input and re-validate as UTF-8; `none` models the `Err` case (the
decoded bytes are not valid UTF-8). -/
def urlencoding.decode (s : String) : Option String :=
  (utf8Decode (decode_binary (utf8Encode s.data))).map (fun cs => ⟨cs⟩)

/-- Model of the Rust `Result` type, with the constructor names of the
source. -/
inductive RustResult (α ε : Type) where
  | ok (v : α)
  | err (e : ε)
deriving Repr, DecidableEq

/-- Embedding of `Request::from_url` (src/lib.rs lines 12-35).  The outer
`Option` models divergence: `none` is the panic of the
`urlencoding::decode(s).unwrap()` call on a failed decode; `some (.err e)`
is a returned `Err(e)` with the literal message of the source
(`"Not a spartan URL"`, `"No hostname"`). -/
def Request.from_url (parsed_url : Url) : Option (RustResult Request String) :=
  if parsed_url.scheme ≠ "spartan" then
    some (.err "Not a spartan URL")
  else
    match parsed_url.host with
    | none => some (.err "No hostname")
    | some unparsed_host =>
      match parsed_url.query with
      | none =>
        some (.ok { host := unparsed_host, path := parsed_url.path
                    content_length := 0, data := none })
      | some s =>
        match urlencoding.decode s with
        | none => none
        | some decoded_data =>
          some (.ok { host := unparsed_host, path := parsed_url.path
                      content_length := decoded_data.data.length
                      data := some decoded_data })

/-- Decimal digit character for a value below ten. -/
def digitChar (n : Nat) : Char := Char.ofNat (0x30 + n)

/-- Fuelled decimal rendering of a natural number (most significant digit
first); with fuel above the digit count it is the standard decimal form,
as produced by the `Display` implementation of `usize`. -/
def natDigits (fuel n : Nat) : List Char :=
  match fuel with
  | 0 => []
  | fuel + 1 =>
    if n < 10 then [digitChar n]
    else natDigits fuel (n / 10) ++ [digitChar (n % 10)]

/-- Decimal string of a natural number. -/
def natToString (n : Nat) : String := ⟨natDigits (n + 1) n⟩

/-- Embedding of the `Display` implementation for `Request`
(src/lib.rs lines 39-46): the format string
`"{} {} {}\r\n{}"` applied to host, path, content length and the body
(empty when `data` is `None`). -/
def Request.render (r : Request) : String :=
  r.host ++ " " ++ r.path ++ " " ++ natToString r.content_length ++ "\r\n" ++
    (match r.data with
     | none => ""
     | some d => d)

/-- Modelled from the spec: the URL parser (the patched url crate, which is
not part of src/) returns `/` as the path of a URL with no explicit path
("a URL with no explicit path yields `/`"). -/
def parsedPath (rawPath : String) : String :=
  if rawPath = "" then "/" else rawPath

/-- Modelled from the spec: assembles the accessor record of a parsed
authority-carrying URL from its raw components, applying the empty-path
normalization of the parser. -/
def parseSpartanUrl (scheme : String) (host : Option String) (port : Option Nat)
    (rawPath : String) (query fragment : Option String) (username : String) : Url :=
  { scheme, host, port, path := parsedPath rawPath, query, fragment, username }

/-- Modelled from the spec: the parse of `spartan://example.com?a=1&b=2`
(scheme `spartan`, host `example.com`, no port, empty raw path, query
`a=1&b=2`). -/
def urlQueryEx : Url :=
  parseSpartanUrl "spartan" (some "example.com") none "" (some "a=1&b=2") none ""

/-- Modelled from the spec: the parse of `spartan://example.com:3000/`. -/
def urlPortEx : Url :=
  parseSpartanUrl "spartan" (some "example.com") (some 3000) "/" none none ""

/-- Modelled from the spec: the parse of `spartan://example.com?%FF` — a
query whose percent-decoding yields the non-UTF-8 byte `0xFF`. -/
def urlBadQueryEx : Url :=
  parseSpartanUrl "spartan" (some "example.com") none "" (some "%FF") none ""

/-- Modelled from the spec: the parse of `spartan://example.com?` — a URL
with a present but empty query component. -/
def urlEmptyQueryEx : Url :=
  parseSpartanUrl "spartan" (some "example.com") none "" (some "") none ""

/-- Modelled from the spec: the parse of `spartan://example.com?a+b` — a
query with a literal `+`. -/
def urlPlusQueryEx : Url :=
  parseSpartanUrl "spartan" (some "example.com") none "" (some "a+b") none ""

/-- Modelled from the spec: the default-port table of the patched url crate
used by `port_or_known_default` maps the `spartan` scheme to port 300 (the
source comments that the patched crate "DOES have a default"; the table
itself is not part of src/). -/
def known_default_port (scheme : String) : Option Nat :=
  if scheme = "spartan" then some 300 else none

/-- Embedding of `Url::port_or_known_default`: the explicit port when present, otherwise
the default port of the scheme. -/
def Url.port_or_known_default (u : Url) : Option Nat :=
  match u.port with
  | some p => some p
  | none => known_default_port u.scheme

/-- Pure slice of `get` (src/lib.rs lines 49-70): the address string
`format!("{}:{}", host, port)` that the TCP connection dials, as a function
of the parsed URL.  `none` models every case in which no connection is
attempted: the panic of `port_or_known_default().unwrap()`, an `Err`
propagated through `?` from `from_url`, and the decode panic inside
`from_url`. -/
def connectAddress (url : Url) : Option String :=
  match url.port_or_known_default with
  | none => none
  | some port =>
    match Request.from_url url with
    | some (.ok request) => some (request.host ++ ":" ++ natToString port)
    | _ => none

/-- Serialization applied under `Option` and `RustResult`: the composition
of `from_url` with the `Display` rendering. -/
def renderResult : Option (RustResult Request String) → Option (RustResult String String)
  | some (.ok r) => some (.ok (Request.render r))
  | some (.err e) => some (.err e)
  | none => none

/-- Formalization of the wording of the spec for the query decoder (not of
the source): a form-style percent-decoder that turns every `+` escape into
the literal space character and every `%XX` hex escape into the character
of that byte value.  It is the comparison point showing that the source
decoder handles `+` differently. -/
def formDecode : List Char → List Char
  | [] => []
  | '%' :: h1 :: h2 :: rest =>
    match fromHexDigit h1.toNat, fromHexDigit h2.toNat with
    | some d1, some d2 => Char.ofNat (d1 * 0x10 + d2) :: formDecode rest
    | _, _ => '%' :: formDecode (h1 :: h2 :: rest)
  | '+' :: rest => ' ' :: formDecode rest
  | c :: rest => c :: formDecode rest

/-- Characters of a serialized request before the first CRLF: the request
line. -/
def takeUntilCRLF : List Char → List Char
  | [] => []
  | c :: rest =>
    if c = '\r' ∧ rest.head? = some '\n' then []
    else c :: takeUntilCRLF rest

/-- Splitting a character list on single space characters. -/
def splitOnSpace : List Char → List (List Char)
  | [] => [[]]
  | c :: rest =>
    if c = ' ' then [] :: splitOnSpace rest
    else
      match splitOnSpace rest with
      | [] => [[c]]
      | g :: gs => (c :: g) :: gs

/-- Decimal value of a digit-character list (`none` when the list is empty
or contains a non-digit). -/
def parseNat? (cs : List Char) : Option Nat :=
  if cs ≠ [] ∧ cs.all (fun c => decide (0x30 ≤ c.toNat ∧ c.toNat ≤ 0x39)) then
    some (cs.foldl (fun a c => a * 10 + (c.toNat - 0x30)) 0)
  else none

/-- Re-parsing of a serialized request, as the round-trip property of the
spec describes it: the line before the CRLF, split on spaces, read as
host, path and decimal content length. -/
def parseRequestLine (s : String) : Option (String × String × Nat) :=
  match splitOnSpace (takeUntilCRLF s.data) with
  | [h, p, n] =>
    match parseNat? n with
    | some len => some (⟨h⟩, ⟨p⟩, len)
    | none => none
  | _ => none

example : natToString 7 = "7" := by decide
example : natToString 302 = "302" := by decide
example : urlencoding.decode "a=1&b=2" = some "a=1&b=2" := by decide
example : urlencoding.decode "hello%20world" = some "hello world" := by decide
example : urlencoding.decode "%FF" = none := by decide
example : Request.from_url urlQueryEx =
    some (.ok { host := "example.com", path := "/", content_length := 7
                data := some "a=1&b=2" }) := by decide
example : Request.from_url urlBadQueryEx = none := by decide
example : connectAddress urlPortEx = some "example.com:3000" := by decide
example : connectAddress (parseSpartanUrl "spartan" (some "example.com") none "/" none none "") =
    some "example.com:300" := by decide
example : parseRequestLine "example.com / 7\r\na=1&b=2" =
    some ("example.com", "/", 7) := by decide
example : String.mk (formDecode "a+b%26c".data) = "a b&c" := by decide

/-! ## Inversion of `from_url` -/

theorem from_url_ok_iff (u : Url) (r : Request) :
    Request.from_url u = some (.ok r) ↔
      u.scheme = "spartan" ∧
        ∃ h, u.host = some h ∧
          ((u.query = none ∧ r = ⟨h, u.path, 0, none⟩) ∨
            ∃ q d, u.query = some q ∧ urlencoding.decode q = some d ∧
              r = ⟨h, u.path, d.data.length, some d⟩) := by
  unfold Request.from_url
  by_cases hs : u.scheme = "spartan"
  · cases hh : u.host with
    | none => simp [hs, hh]
    | some host =>
      cases hq : u.query with
      | none => simp [hs, hh, hq, eq_comm]
      | some q =>
        cases hd : urlencoding.decode q with
        | none => simp [hs, hh, hq, hd]
        | some d => simp [hs, hh, hq, hd, eq_comm]
  · simp [hs]

/-! ## Claim theorems (part 1) -/

/-- Claim C1: for the literal URLs of the spec, composing `from_url` with
serialization yields exactly the stated wire bytes:
`spartan://example.com?a=1&b=2` serializes to
`"example.com / 7\r\na=1&b=2"`, and `spartan://example.com:3000/`
serializes to `"example.com / 0\r\n"` — an explicit URL port leaves the
serialized request line unchanged. -/
theorem literal_url_serializations :
    renderResult (Request.from_url urlQueryEx) =
        some (.ok "example.com / 7\r\na=1&b=2") ∧
      renderResult (Request.from_url urlPortEx) =
        some (.ok "example.com / 0\r\n") :=
  ⟨by decide, by decide⟩

/-- Claim C4 (code bug): the claim states that a query whose
percent-decoding fails is reported as a tagged `Err` (DecodeError) rather
than an ungraceful abort; the source instead calls
`urlencoding::decode(s).unwrap()` (src/lib.rs line 23) and panics.  At the
query `%FF`, whose decode produces the invalid-UTF-8 byte `0xFF`, the
embedding evaluates to `none` — the modelled panic — and to no `Err`
value. -/
theorem bad_query_decode_panics :
    Request.from_url urlBadQueryEx = none := by decide

/-- Claim C5: `from_url` fails with the invalid-scheme error
(`Err("Not a spartan URL")`, called InvalidScheme in the spec) whenever the scheme
is not the literal `spartan`; fails with the missing-host error
(`Err("No hostname")`, called MissingHost in the spec) for a spartan URL without a
host; and returns `Ok` for every spartan URL with a host whose query is
absent or percent-decodes successfully. -/
theorem from_url_validation (u : Url) :
    (u.scheme ≠ "spartan" → Request.from_url u = some (.err "Not a spartan URL")) ∧
      (u.scheme = "spartan" → u.host = none →
        Request.from_url u = some (.err "No hostname")) ∧
      (u.scheme = "spartan" → ∀ hostv, u.host = some hostv →
        (u.query = none ∨ ∃ q d, u.query = some q ∧ urlencoding.decode q = some d) →
        ∃ r, Request.from_url u = some (.ok r)) := by
  refine ⟨fun hs => ?_, fun hs hh => ?_, fun hs hostv hh hq => ?_⟩
  · simp [Request.from_url, hs]
  · simp [Request.from_url, hs, hh]
  · rcases hq with hq | ⟨q, d, hq, hd⟩
    · exact ⟨⟨hostv, u.path, 0, none⟩,
        (from_url_ok_iff u _).2 ⟨hs, hostv, hh, Or.inl ⟨hq, rfl⟩⟩⟩
    · exact ⟨⟨hostv, u.path, d.data.length, some d⟩,
        (from_url_ok_iff u _).2 ⟨hs, hostv, hh, Or.inr ⟨q, d, hq, hd, rfl⟩⟩⟩

/-- Witness for claim C5: the three branches at concrete URLs — an `https`
URL, a hostless spartan URL, and the query-carrying literal example. -/
theorem from_url_validation_witness :
    Request.from_url (Url.mk "https" (some "example.com") none "/" none none "") =
        some (.err "Not a spartan URL") ∧
      Request.from_url (Url.mk "spartan" none none "/" none none "") =
        some (.err "No hostname") ∧
      ∃ r, Request.from_url urlQueryEx = some (.ok r) :=
  ⟨(from_url_validation _).1 (by decide),
   (from_url_validation _).2.1 rfl rfl,
   (from_url_validation _).2.2 rfl "example.com" rfl
     (Or.inr ⟨"a=1&b=2", "a=1&b=2", rfl, by decide⟩)⟩

/-- Claim C6: every valid Spartan URL with an empty (absent) path maps
under the parser and `from_url` to a Request whose path is `/`: the parser
normalizes the empty path to `/` and `from_url` copies the path
verbatim. -/
theorem empty_path_maps_to_slash (host : String) (port : Option Nat)
    (query fragment : Option String) (username : String) (r : Request)
    (hr : Request.from_url
        (parseSpartanUrl "spartan" (some host) port "" query fragment username) =
      some (.ok r)) :
    r.path = "/" := by
  rcases (from_url_ok_iff _ _).1 hr with ⟨-, h, -, hcase⟩
  rcases hcase with ⟨-, rfl⟩ | ⟨q, d, -, -, rfl⟩ <;> rfl

/-- Witness for claim C6: the empty-path URL `spartan://example.com`. -/
theorem empty_path_maps_to_slash_witness :
    (Request.mk "example.com" "/" 0 none).path = "/" :=
  empty_path_maps_to_slash "example.com" none none none ""
    (Request.mk "example.com" "/" 0 none) (by decide)

/-- Claim C9: the address dialled by `get` is always `host:port` with the
port resolved from the URL — the explicit port when present, otherwise the
default port 300 of the spartan scheme. -/
theorem get_port_resolution (u : Url) (r : Request)
    (hs : u.scheme = "spartan")
    (hr : Request.from_url u = some (.ok r)) :
    connectAddress u = some (r.host ++ ":" ++ natToString (u.port.getD 300)) := by
  unfold connectAddress Url.port_or_known_default known_default_port
  cases hp : u.port with
  | none => simp [hs, hr, hp]
  | some p => simp [hp, hr]

/-- Witness for claim C9: an explicit port 3000 is used as given, and a
portless spartan URL resolves to the default port 300. -/
theorem get_port_resolution_witness :
    connectAddress urlPortEx = some ("example.com" ++ ":" ++ natToString 3000) ∧
      connectAddress (Url.mk "spartan" (some "example.com") none "/" none none "") =
        some ("example.com" ++ ":" ++ natToString 300) :=
  ⟨get_port_resolution _ (Request.mk "example.com" "/" 0 none) rfl (by decide),
   get_port_resolution _ (Request.mk "example.com" "/" 0 none) rfl (by decide)⟩

/-- Claim C10: the fragment and userinfo components never influence the
Request: two parsed URLs that agree on scheme, host, port, path and query
(so differ only in fragment or username) give identical `from_url`
results — in particular identical host, path, content length and data. -/
theorem from_url_ignores_fragment_user (u1 u2 : Url)
    (hs : u1.scheme = u2.scheme) (hh : u1.host = u2.host)
    (hpo : u1.port = u2.port) (hp : u1.path = u2.path)
    (hq : u1.query = u2.query) :
    Request.from_url u1 = Request.from_url u2 := by
  obtain ⟨s1, h1, po1, pa1, q1, f1, n1⟩ := u1
  obtain ⟨s2, h2, po2, pa2, q2, f2, n2⟩ := u2
  dsimp at hs hh hpo hp hq
  subst hs; subst hh; subst hpo; subst hp; subst hq
  rfl

/-- Witness for claim C10: two URLs differing only in fragment and
username. -/
theorem from_url_ignores_fragment_user_witness :
    Request.from_url (Url.mk "spartan" (some "example.com") none "/" none (some "about") "") =
      Request.from_url (Url.mk "spartan" (some "example.com") none "/" none none "anon") :=
  from_url_ignores_fragment_user _ _ rfl rfl rfl rfl rfl

/-! ## UTF-8 roundtrip lemmas -/

theorem utf8DecodeF_encodeChar (fuel : Nat) (c : Char) (bs : List Nat) :
    utf8DecodeF (fuel + 1) (utf8EncodeChar c ++ bs) =
      (utf8DecodeF fuel bs).map (fun cs => c :: cs) := by
  have hv : c.toNat < 0xd800 ∨ (0xdfff < c.toNat ∧ c.toNat < 0x110000) := c.valid
  have hc : Char.ofNat c.toNat = c := Char.ofNat_toNat c
  unfold utf8EncodeChar
  by_cases h1 : c.toNat < 0x80
  · rw [if_pos h1, List.singleton_append, utf8DecodeF.eq_def]
    dsimp only
    rw [if_pos h1, hc]
  · by_cases h2 : c.toNat < 0x800
    · rw [if_neg h1, if_pos h2, List.cons_append, List.singleton_append,
        utf8DecodeF.eq_def]
      dsimp only
      rw [if_neg (by omega), if_neg (by omega), if_pos (by omega),
        if_pos (by omega)]
      have harg : (0xC0 + c.toNat / 0x40 - 0xC0) * 0x40 +
          (0x80 + c.toNat % 0x40 - 0x80) = c.toNat := by omega
      rw [harg, hc]
    · by_cases h3 : c.toNat < 0x10000
      · rw [if_neg h1, if_neg h2, if_pos h3, List.cons_append, List.cons_append,
          List.singleton_append, utf8DecodeF.eq_def]
        dsimp only
        rw [if_neg (by omega), if_neg (by omega), if_neg (by omega),
          if_pos (by omega), if_pos (by split_ifs <;> omega)]
        have harg : (0xE0 + c.toNat / 0x1000 - 0xE0) * 0x1000 +
            (0x80 + c.toNat / 0x40 % 0x40 - 0x80) * 0x40 +
            (0x80 + c.toNat % 0x40 - 0x80) = c.toNat := by omega
        rw [harg, hc]
      · rw [if_neg h1, if_neg h2, if_neg h3, List.cons_append, List.cons_append,
          List.cons_append, List.singleton_append, utf8DecodeF.eq_def]
        dsimp only
        rw [if_neg (by omega), if_neg (by omega), if_neg (by omega),
          if_neg (by omega), if_pos (by omega),
          if_pos (by split_ifs <;> omega)]
        have harg : (0xF0 + c.toNat / 0x40000 - 0xF0) * 0x40000 +
            (0x80 + c.toNat / 0x1000 % 0x40 - 0x80) * 0x1000 +
            (0x80 + c.toNat / 0x40 % 0x40 - 0x80) * 0x40 +
            (0x80 + c.toNat % 0x40 - 0x80) = c.toNat := by omega
        rw [harg, hc]

theorem utf8DecodeF_utf8Encode (cs : List Char) :
    ∀ fuel, cs.length < fuel → utf8DecodeF fuel (utf8Encode cs) = some cs := by
  induction cs with
  | nil =>
    intro fuel h
    cases fuel with
    | zero => omega
    | succ f => rfl
  | cons c cs ih =>
    intro fuel h
    cases fuel with
    | zero => omega
    | succ f =>
      rw [utf8Encode, utf8DecodeF_encodeChar, ih f (by simpa using h)]
      rfl

theorem length_le_utf8Encode_length (cs : List Char) :
    cs.length ≤ (utf8Encode cs).length := by
  induction cs with
  | nil => simp [utf8Encode]
  | cons c cs ih =>
    rw [utf8Encode, List.length_append]
    have h1 : 1 ≤ (utf8EncodeChar c).length := by
      unfold utf8EncodeChar
      split_ifs <;> simp
    rw [List.length_cons]
    omega

theorem utf8Decode_utf8Encode (cs : List Char) :
    utf8Decode (utf8Encode cs) = some cs := by
  have h := length_le_utf8Encode_length cs
  unfold utf8Decode
  exact utf8DecodeF_utf8Encode cs _ (by omega)

/-! ## Percent-decoding lemmas -/

theorem decode_binary_cons_ne (b : Nat) (rest : List Nat) (hb : b ≠ 0x25) :
    decode_binary (b :: rest) = b :: decode_binary rest := by
  match rest with
  | [] => rfl
  | [x] => rfl
  | x :: y :: r => simp [decode_binary, hb]

theorem decode_binary_no_percent (l : List Nat) (h : ∀ b ∈ l, b ≠ 0x25) :
    decode_binary l = l := by
  induction l with
  | nil => rfl
  | cons b rest ih =>
    rw [decode_binary_cons_ne b rest (h b (by simp))]
    rw [ih (fun x hx => h x (by simp [hx]))]

theorem decode_binary_escape (h1 h2 d1 d2 : Nat) (rest : List Nat)
    (hh1 : fromHexDigit h1 = some d1) (hh2 : fromHexDigit h2 = some d2) :
    decode_binary (0x25 :: h1 :: h2 :: rest) =
      (d1 * 0x10 + d2) :: decode_binary rest := by
  simp [decode_binary, hh1, hh2]

theorem mem_utf8EncodeChar_ne_percent (c : Char) (hc : c ≠ '%') :
    ∀ b ∈ utf8EncodeChar c, b ≠ 0x25 := by
  intro b hb
  have hv : c.toNat < 0xd800 ∨ (0xdfff < c.toNat ∧ c.toNat < 0x110000) := c.valid
  unfold utf8EncodeChar at hb
  split_ifs at hb with h1 h2 h3
  · simp at hb
    subst hb
    intro hb25
    apply hc
    have := Char.ofNat_toNat c
    rw [hb25] at this
    rw [← this]
  · simp at hb
    rcases hb with hb | hb <;> omega
  · simp at hb
    rcases hb with hb | hb | hb <;> omega
  · simp at hb
    rcases hb with hb | hb | hb | hb <;> omega

theorem utf8Encode_no_percent (cs : List Char) (h : ∀ c ∈ cs, c ≠ '%') :
    ∀ b ∈ utf8Encode cs, b ≠ 0x25 := by
  induction cs with
  | nil => intro b hb; cases hb
  | cons c cs ih =>
    intro b hb
    rw [utf8Encode] at hb
    rcases List.mem_append.1 hb with hb | hb
    · exact mem_utf8EncodeChar_ne_percent c (h c (by simp)) b hb
    · exact ih (fun x hx => h x (by simp [hx])) b hb

theorem urlencoding_decode_no_percent (s : String) (h : ∀ c ∈ s.data, c ≠ '%') :
    urlencoding.decode s = some s := by
  unfold urlencoding.decode
  rw [decode_binary_no_percent _ (utf8Encode_no_percent s.data h)]
  rw [utf8Decode_utf8Encode]
  rfl

theorem string_data_length_zero_iff (d : String) : d.data.length = 0 ↔ d = "" := by
  constructor
  · intro h
    cases d with
    | mk l =>
      cases l with
      | nil => rfl
      | cons c cs => simp at h
  · intro h
    subst h
    rfl

theorem string_length_zero_iff (d : String) : d.length = 0 ↔ d = "" :=
  string_data_length_zero_iff d

/-! ## Claim theorems (part 2) -/

/-- Counterexample for claim C2 as stated: `spartan://example.com?` parses
with a present but empty query, and `from_url` then produces
`content_length = 0` together with `data = Some("")` — so
`content_length == 0 ⇔ data absent` fails, as does `data present iff the
query is non-empty`. -/
theorem empty_query_counterexample :
    Request.from_url urlEmptyQueryEx =
        some (.ok (Request.mk "example.com" "/" 0 (some ""))) ∧
      ¬((Request.mk "example.com" "/" 0 (some "")).content_length = 0 →
        (Request.mk "example.com" "/" 0 (some "")).data = none) :=
  ⟨by decide, by decide⟩

/-- Claim C2 (amended): for every Request constructed by `from_url`, data
is present iff the source URL had a query component (possibly empty);
whenever data is present it is the percent-decode of that query and
`content_length` is its character count (Unicode scalar values, not
bytes); consequently `content_length = 0` iff data is absent or empty. -/
theorem from_url_data_invariants (u : Url) (r : Request)
    (hr : Request.from_url u = some (.ok r)) :
    (r.data = none ↔ u.query = none) ∧
      (∀ d, r.data = some d →
        ∃ q, u.query = some q ∧ urlencoding.decode q = some d ∧
          r.content_length = d.data.length) ∧
      (r.content_length = 0 ↔ (r.data = none ∨ r.data = some "")) := by
  rcases (from_url_ok_iff u r).1 hr with ⟨hs, host, hh, hcase⟩
  rcases hcase with ⟨hq, rfl⟩ | ⟨q, d, hq, hd, rfl⟩
  · refine ⟨by simp [hq], ?_, by simp⟩
    intro d hd
    simp at hd
  · refine ⟨by simp [hq], ?_, by simp [string_data_length_zero_iff, string_length_zero_iff]⟩
    intro d0 hd0
    simp at hd0
    subst hd0
    exact ⟨q, hq, hd, rfl⟩

/-- Witness for claim C2: the amended invariants at the literal query
example `spartan://example.com?a=1&b=2`. -/
theorem from_url_data_invariants_witness :
    ((Request.mk "example.com" "/" 7 (some "a=1&b=2")).data = none ↔
        urlQueryEx.query = none) ∧
      (∀ d, (Request.mk "example.com" "/" 7 (some "a=1&b=2")).data = some d →
        ∃ q, urlQueryEx.query = some q ∧ urlencoding.decode q = some d ∧
          (Request.mk "example.com" "/" 7 (some "a=1&b=2")).content_length =
            d.data.length) ∧
      ((Request.mk "example.com" "/" 7 (some "a=1&b=2")).content_length = 0 ↔
        ((Request.mk "example.com" "/" 7 (some "a=1&b=2")).data = none ∨
          (Request.mk "example.com" "/" 7 (some "a=1&b=2")).data = some "")) :=
  from_url_data_invariants urlQueryEx (Request.mk "example.com" "/" 7 (some "a=1&b=2"))
    (by decide)

/-- Counterexample for claim C3 as stated: the claim reads the query
decoding as form-style, turning the `+` escape into its literal character
(a space).  On `spartan://example.com?a+b` that reading demands the body
`a b`, but `from_url` (via `urlencoding::decode`, which gives `+` no
special treatment) produces the body `a+b`. -/
theorem plus_query_counterexample :
    Request.from_url urlPlusQueryEx =
        some (.ok (Request.mk "example.com" "/" 3 (some "a+b"))) ∧
      String.mk (formDecode "a+b".data) = "a b" ∧
      (Request.mk "example.com" "/" 3 (some "a+b")).data ≠ some "a b" :=
  ⟨by decide, by decide, by decide⟩

/-- Claim C3 (amended): for every URL with a query component, `from_url`
produces the body by percent-decoding the raw query with
`urlencoding::decode`, and `content_length` is the character count of the
decoded result; the decoder turns every `%XX` escape (valid hex digits)
into the byte `XX` — the decoded byte sequence read back as UTF-8 — and
preserves every character other than `%`, in particular literal `+`, `&`
and `=`, unchanged. -/
theorem query_percent_decoding (u : Url) (q : String) (r : Request)
    (hq : u.query = some q) (hr : Request.from_url u = some (.ok r)) :
    (∃ d, urlencoding.decode q = some d ∧ r.data = some d ∧
        r.content_length = d.data.length) ∧
      (∀ s : String, (∀ c ∈ s.data, c ≠ '%') → urlencoding.decode s = some s) ∧
      (∀ h1 h2 d1 d2 rest, fromHexDigit h1 = some d1 → fromHexDigit h2 = some d2 →
        decode_binary (0x25 :: h1 :: h2 :: rest) =
          (d1 * 0x10 + d2) :: decode_binary rest) := by
  refine ⟨?_, urlencoding_decode_no_percent, decode_binary_escape⟩
  rcases (from_url_ok_iff u r).1 hr with ⟨hs, host, hh, hcase⟩
  rcases hcase with ⟨hq0, rfl⟩ | ⟨q0, d, hq0, hd, rfl⟩
  · rw [hq] at hq0
    cases hq0
  · rw [hq] at hq0
    injection hq0 with hq0
    subst hq0
    exact ⟨d, hd, rfl, rfl⟩

/-- Witness for claim C3: the amended statement at the literal query
example `spartan://example.com?a=1&b=2`. -/
theorem query_percent_decoding_witness :
    (∃ d, urlencoding.decode "a=1&b=2" = some d ∧
        (Request.mk "example.com" "/" 7 (some "a=1&b=2")).data = some d ∧
        (Request.mk "example.com" "/" 7 (some "a=1&b=2")).content_length =
          d.data.length) ∧
      (∀ s : String, (∀ c ∈ s.data, c ≠ '%') → urlencoding.decode s = some s) ∧
      (∀ h1 h2 d1 d2 rest, fromHexDigit h1 = some d1 → fromHexDigit h2 = some d2 →
        decode_binary (0x25 :: h1 :: h2 :: rest) =
          (d1 * 0x10 + d2) :: decode_binary rest) :=
  query_percent_decoding urlQueryEx "a=1&b=2"
    (Request.mk "example.com" "/" 7 (some "a=1&b=2")) rfl (by decide)

/-! ## Serialization lemmas -/

theorem digitChar_toNat (n : Nat) (h : n < 10) : (digitChar n).toNat = 0x30 + n := by
  interval_cases n <;> decide

theorem natDigits_digit (fuel n : Nat) :
    ∀ c ∈ natDigits fuel n, 0x30 ≤ c.toNat ∧ c.toNat ≤ 0x39 := by
  induction fuel generalizing n with
  | zero => intro c hc; cases hc
  | succ fuel ih =>
    intro c hc
    rw [natDigits] at hc
    by_cases h : n < 10
    · rw [if_pos h] at hc
      simp at hc
      subst hc
      rw [digitChar_toNat n h]
      omega
    · rw [if_neg h] at hc
      rcases List.mem_append.1 hc with hc | hc
      · exact ih (n / 10) c hc
      · simp at hc
        subst hc
        rw [digitChar_toNat _ (Nat.mod_lt n (by norm_num))]
        omega

theorem natDigits_not_special (fuel n : Nat) :
    ∀ c ∈ natDigits fuel n, c ≠ ' ' ∧ c ≠ '\r' ∧ c ≠ '\n' := by
  intro c hc
  have h := natDigits_digit fuel n c hc
  refine ⟨?_, ?_, ?_⟩ <;> intro he <;> subst he <;> exact absurd h (by decide)

theorem natDigits_ne_nil (fuel n : Nat) : natDigits (fuel + 1) n ≠ [] := by
  rw [natDigits]
  by_cases h : n < 10 <;> simp [h]

theorem foldl_natDigits (fuel : Nat) :
    ∀ n a, 0 < fuel → n < 10 ^ fuel →
      (natDigits fuel n).foldl (fun acc c => acc * 10 + (c.toNat - 0x30)) a =
        a * 10 ^ (natDigits fuel n).length + n := by
  induction fuel with
  | zero => intro n a h; omega
  | succ fuel ih =>
    intro n a hpos hlt
    rw [natDigits]
    by_cases hn : n < 10
    · rw [if_pos hn]
      simp [digitChar_toNat n hn]
    · rw [if_neg hn]
      have hfuel : 0 < fuel := by
        rcases Nat.eq_zero_or_pos fuel with h0 | h0
        · subst h0
          rw [pow_one] at hlt
          omega
        · exact h0
      have hdiv : n / 10 < 10 ^ fuel := by
        rw [Nat.div_lt_iff_lt_mul (by norm_num)]
        calc n < 10 ^ (fuel + 1) := hlt
          _ = 10 ^ fuel * 10 := by rw [pow_succ]
      rw [List.foldl_append]
      rw [ih (n / 10) a hfuel hdiv]
      simp [digitChar_toNat _ (Nat.mod_lt n (by norm_num)), List.length_append]
      generalize (natDigits fuel (n / 10)).length = L
      have hmod : n / 10 * 10 + n % 10 = n := by omega
      calc (a * 10 ^ L + n / 10) * 10 + n % 10
          = a * (10 ^ L * 10) + (n / 10 * 10 + n % 10) := by ring
        _ = a * 10 ^ (L + 1) + n := by rw [hmod, pow_succ]

theorem parseNat?_natToString (n : Nat) :
    parseNat? (natToString n).data = some n := by
  have hne : natDigits (n + 1) n ≠ [] := natDigits_ne_nil n n
  have hall : ∀ c ∈ natDigits (n + 1) n, 0x30 ≤ c.toNat ∧ c.toNat ≤ 0x39 :=
    natDigits_digit (n + 1) n
  have hlt : n < 10 ^ (n + 1) :=
    lt_of_lt_of_le (Nat.lt_pow_self (by norm_num) n)
      (Nat.pow_le_pow_right (by norm_num) (Nat.le_succ n))
  have hcond : (natToString n).data ≠ [] ∧
      ((natToString n).data.all (fun c => decide (0x30 ≤ c.toNat ∧ c.toNat ≤ 0x39)) = true) := by
    refine ⟨hne, ?_⟩
    rw [List.all_eq_true]
    intro c hc
    exact decide_eq_true (hall c hc)
  unfold parseNat?
  rw [if_pos hcond]
  have := foldl_natDigits (n + 1) n 0 (Nat.succ_pos n) hlt
  rw [show (natToString n).data = natDigits (n + 1) n from rfl, this]
  simp

theorem takeUntilCRLF_append (A B : List Char) (h : ∀ c ∈ A, c ≠ '\r') :
    takeUntilCRLF (A ++ '\r' :: '\n' :: B) = A := by
  induction A with
  | nil =>
    rw [List.nil_append, takeUntilCRLF]
    rw [if_pos ⟨rfl, rfl⟩]
  | cons c A ih =>
    rw [List.cons_append, takeUntilCRLF]
    rw [if_neg (fun hcon => h c (by simp) hcon.1)]
    rw [ih (fun x hx => h x (by simp [hx]))]

theorem splitOnSpace_no_space (A : List Char) (h : ∀ c ∈ A, c ≠ ' ') :
    splitOnSpace A = [A] := by
  induction A with
  | nil => rfl
  | cons c A ih =>
    rw [splitOnSpace, if_neg (h c (by simp))]
    rw [ih (fun x hx => h x (by simp [hx]))]

theorem splitOnSpace_append (A B : List Char) (h : ∀ c ∈ A, c ≠ ' ') :
    splitOnSpace (A ++ ' ' :: B) = A :: splitOnSpace B := by
  induction A with
  | nil =>
    rw [List.nil_append, splitOnSpace, if_pos rfl]
  | cons c A ih =>
    rw [List.cons_append, splitOnSpace, if_neg (h c (by simp))]
    rw [ih (fun x hx => h x (by simp [hx]))]

theorem space_data : (" " : String).data = [' '] := rfl

theorem crlf_data : ("\r\n" : String).data = ['\r', '\n'] := rfl

theorem render_data (r : Request) :
    (Request.render r).data =
      r.host.data ++ ' ' :: (r.path.data ++ ' ' ::
        ((natToString r.content_length).data ++ '\r' :: '\n' ::
          (r.data.getD "").data)) := by
  unfold Request.render
  cases r with
  | mk host path cl data =>
    cases data <;>
      simp [String.data_append, space_data, crlf_data, List.append_assoc]

/-! ## Claim theorems (part 3) -/

/-- Claim C7: for every Request the serialized form is exactly the host,
path and content length separated by single spaces, terminated by CRLF,
followed directly by the body (nothing when `data` is absent) with no
additional delimiter and no trailing terminator after the body.  The
serializer is a total function of the Request, so serialization never
fails. -/
theorem render_wire_format (r : Request) :
    Request.render r =
        r.host ++ " " ++ r.path ++ " " ++ natToString r.content_length ++ "\r\n" ++
          r.data.getD "" ∧
      (Request.render r).data =
        r.host.data ++ [' '] ++ r.path.data ++ [' '] ++
          (natToString r.content_length).data ++ ['\r', '\n'] ++
          (r.data.getD "").data := by
  constructor
  · unfold Request.render
    cases hd : r.data <;> rfl
  · rw [render_data]
    simp [List.append_assoc]

/-- Claim C8: round trip — serializing a Request produced by `from_url`
and re-parsing the request line (the part before the CRLF, split on
spaces) recovers the same host, the same path and the same content
length.  The hypotheses record what the URL grammar guarantees for
parser-produced hosts and paths: they contain no space, CR or LF. -/
theorem request_line_roundtrip (u : Url) (r : Request)
    (hr : Request.from_url u = some (.ok r))
    (hhost : ∀ c ∈ r.host.data, c ≠ ' ' ∧ c ≠ '\r' ∧ c ≠ '\n')
    (hpath : ∀ c ∈ r.path.data, c ≠ ' ' ∧ c ≠ '\r' ∧ c ≠ '\n') :
    parseRequestLine (Request.render r) =
      some (r.host, r.path, r.content_length) := by
  have hnoCR : ∀ c ∈ r.host.data ++ ' ' :: (r.path.data ++ ' ' ::
      (natToString r.content_length).data), c ≠ '\r' := by
    intro c hc
    rcases List.mem_append.1 hc with hc | hc
    · exact (hhost c hc).2.1
    · rcases List.mem_cons.1 hc with rfl | hc
      · decide
      · rcases List.mem_append.1 hc with hc | hc
        · exact (hpath c hc).2.1
        · rcases List.mem_cons.1 hc with rfl | hc
          · decide
          · exact (natDigits_not_special _ _ c hc).2.1
  have hline : takeUntilCRLF (Request.render r).data =
      r.host.data ++ ' ' :: (r.path.data ++ ' ' ::
        (natToString r.content_length).data) := by
    rw [render_data]
    rw [show r.host.data ++ ' ' :: (r.path.data ++ ' ' ::
        ((natToString r.content_length).data ++ '\r' :: '\n' ::
          (r.data.getD "").data)) =
      (r.host.data ++ ' ' :: (r.path.data ++ ' ' ::
        (natToString r.content_length).data)) ++ '\r' :: '\n' ::
          (r.data.getD "").data from by simp [List.append_assoc]]
    exact takeUntilCRLF_append _ _ hnoCR
  unfold parseRequestLine
  rw [hline]
  rw [splitOnSpace_append _ _ (fun c hc => (hhost c hc).1)]
  rw [splitOnSpace_append _ _ (fun c hc => (hpath c hc).1)]
  rw [splitOnSpace_no_space (natToString r.content_length).data
    (fun c hc => (natDigits_not_special _ _ c hc).1)]
  dsimp only
  rw [show parseNat? (natToString r.content_length).data =
    some r.content_length from parseNat?_natToString r.content_length]

/-- Witness for claim C8: the round trip at the literal query example. -/
theorem request_line_roundtrip_witness :
    parseRequestLine (Request.render (Request.mk "example.com" "/" 7 (some "a=1&b=2"))) =
      some ("example.com", "/", 7) :=
  request_line_roundtrip urlQueryEx (Request.mk "example.com" "/" 7 (some "a=1&b=2"))
    (by decide) (by decide) (by decide)
